import Mathlib

/-
Verification of the postul repository specification.

Part 1 models the structured feedback ingestion and reward-scoring pipeline.
The repository contains this subsystem only as a design document
(src/docs/rlhf_pipeline.md together with the specification); no executable
implementation exists under src/. Every definition of part 1 is therefore
modelled from the specification text, as its doc comment records.

Part 2 is a shallow embedding of the mobile client code that does exist under
src/: the ApiService HTTP client (src/apps/mobile/constants/api.ts) and the
analyzeIdea flow of the home screen (src/unnamed/part_001, lines 1027-1063).
-/

set_option autoImplicit false

namespace Postul

/-- Modelled from the spec: the error taxonomy of section 7; the executable
pipeline is missing from src/, so the taxonomy is taken from the spec text. -/
inductive ErrorKind where
  | SchemaViolation
  | OutOfRange
  | MalformedTimestamp
  | MissingBaseSignal
  | InvalidPair
  | DuplicateIgnored
  | TransientStoreFailure
deriving DecidableEq

/-- Modelled from the spec: the training-input context of a feedback event
(section 3), four optional fields. -/
structure Context where
  productIdea : Option String
  targetAudience : Option String
  goal : Option String
  previousTests : List String
deriving DecidableEq

/-- Modelled from the spec: the generated artifact being rated (section 3). -/
structure Output where
  type : String
  content : String
  tokenCount : Option Int
deriving DecidableEq

/-- Modelled from the spec: the feedback block of a raw, not yet validated
event (section 3); rating is typed integer by the JSON schema of the design
document, and every field of a raw event may be absent. -/
structure RawFeedback where
  rating : Option Int
  usefulness : Option Int
  clarity : Option Int
  biasCheck : Option Bool
  wouldFollow : Option Int
  freeText : Option String
deriving DecidableEq

/-- Modelled from the spec: a raw event as submitted by a client, before
validation (sections 3 and 4.1); required fields are still optional here
because the validator is what enforces their presence. -/
structure RawEvent where
  id : Option String
  userId : Option String
  timestamp : Option String
  appVersion : Option String
  context : Option Context
  output : Option Output
  sourceModel : Option String
  feedback : Option RawFeedback
deriving DecidableEq

/-- Modelled from the spec: the feedback block after validation; rating is
mandatory, the optional numeric fields keep their distinct unset state. -/
structure Feedback where
  rating : Int
  usefulness : Option Int
  clarity : Option Int
  biasCheck : Option Bool
  wouldFollow : Option Int
  freeText : Option String
deriving DecidableEq

/-- Modelled from the spec: a validated FeedbackEvent (section 3). The
timestamp is stored parsed. -/
structure FeedbackEvent where
  id : String
  userId : String
  timestamp : Nat
  appVersion : Option String
  context : Context
  output : Output
  sourceModel : String
  feedback : Feedback
deriving DecidableEq

/-- A numeric feedback value is in the mandated range [1,5] (section 3). -/
def inRange15 (r : Int) : Bool := decide (1 ≤ r ∧ r ≤ 5)

/-- An optional numeric feedback field, if present, is in range [1,5];
unset fields pass (section 3: unset is a distinct state, not a score). -/
def optInRange15 : Option Int → Bool
  | none => true
  | some r => inRange15 r

/-- Decimal value of a digit list, used by the timestamp parse. -/
def digitsToNat (l : List Char) : Nat :=
  l.foldl (fun acc c => acc * 10 + (c.toNat - 48)) 0

/-- Modelled from the spec: the timestamp format is not fixed by the spec
beyond being parseable (section 4.1 fails unparsable timestamps with
MalformedTimestamp); parsing is modelled as a nonempty all-digit epoch
string. -/
def parseTimestamp (s : String) : Option Nat :=
  if s.data ≠ [] ∧ s.data.all Char.isDigit then some (digitsToNat s.data) else none

/-- Truncation of free text to 2000 characters (sections 3 and 4.1). -/
def truncateFreeText (s : String) : String := String.mk (s.data.take 2000)

/-- Modelled from the spec: the Feedback Event Validator of section 4.1,
which is missing from src/. Checks the required fields (id, userId,
timestamp, context, output, feedback.rating, sourceModel) and fails with
SchemaViolation when one is absent; fails with MalformedTimestamp on an
unparsable timestamp; fails with OutOfRange when rating, or any present
optional numeric feedback field, is outside [1,5]; truncates freeText to
2000 characters instead of rejecting. Pure, no side effects. -/
def validate (raw : RawEvent) : Except ErrorKind FeedbackEvent :=
  match raw.id, raw.userId, raw.timestamp, raw.context, raw.output, raw.sourceModel, raw.feedback with
  | some i, some u, some ts, some cx, some outp, some sm, some fb =>
    match fb.rating with
    | none => .error .SchemaViolation
    | some r =>
      match parseTimestamp ts with
      | none => .error .MalformedTimestamp
      | some tsv =>
        if inRange15 r && optInRange15 fb.usefulness && optInRange15 fb.clarity
            && optInRange15 fb.wouldFollow then
          .ok { id := i, userId := u, timestamp := tsv, appVersion := raw.appVersion,
                context := cx, output := outp, sourceModel := sm,
                feedback := { rating := r, usefulness := fb.usefulness, clarity := fb.clarity,
                              biasCheck := fb.biasCheck, wouldFollow := fb.wouldFollow,
                              freeText := fb.freeText.map truncateFreeText } }
        else .error .OutOfRange
  | _, _, _, _, _, _, _ => .error .SchemaViolation

/-- Modelled from the spec: the scrubber annotations of section 3. -/
structure SystemAnnotations where
  containsPersonalData : Bool
  containsActionableRecruitmentSteps : Bool
  policyViolations : List String
deriving DecidableEq

/-- Modelled from the spec: the configurable detector set of the scrubber
(section 4.2); detectors and policy rules are pluggable predicates, each
policy rule carries its violation code. -/
structure ScrubConfig where
  piiDetectors : List (String → Bool)
  recruitmentDetector : String → Bool
  policyRules : List (String × (String → Bool))

/-- The text surface the scrubber scans: context fields, output content and
free text (section 4.2). -/
def eventText (e : FeedbackEvent) : String :=
  String.join ([e.context.productIdea.getD "", e.context.targetAudience.getD "",
    e.context.goal.getD ""] ++ e.context.previousTests
    ++ [e.output.content, e.feedback.freeText.getD ""])

/-- A validated event together with its scrubber annotations. -/
structure ScrubbedEvent where
  event : FeedbackEvent
  systemAnnotations : SystemAnnotations
deriving DecidableEq

/-- Modelled from the spec: the PII/Policy Scrubber of section 4.2, missing
from src/. Never fails, only annotates; does not block ingestion. -/
def scrub (cfg : ScrubConfig) (e : FeedbackEvent) : ScrubbedEvent :=
  { event := e,
    systemAnnotations :=
      { containsPersonalData := cfg.piiDetectors.any fun d => d (eventText e),
        containsActionableRecruitmentSteps := cfg.recruitmentDetector (eventText e),
        policyViolations := (cfg.policyRules.filter fun rule => rule.2 (eventText e)).map
          fun rule => rule.1 } }

/-- Modelled from the spec: sampling configuration of section 4.4; the
probability p is a rational sampleNumer / sampleDenom, default 0.05. -/
structure SamplingConfig where
  seed : Nat
  sampleNumer : Nat
  sampleDenom : Nat
deriving DecidableEq

/-- Modelled from the spec: the default sampling probability p = 0.05. -/
def defaultSampling : SamplingConfig := { seed := 0, sampleNumer := 1, sampleDenom := 20 }

/-- Modelled from the spec: the hash over the event id is left unspecified by
section 4.4; modelled as a seeded 32-bit polynomial string hash. -/
def idHash (seed : Nat) (s : String) : Nat :=
  s.data.foldl (fun h c => (h * 31 + c.toNat) % 4294967296) seed

/-- The fixed seeded pseudo-random draw of section 4.4: a pure function of
the configuration and the event id. -/
def hashDraw (cfg : SamplingConfig) (i : String) : Bool :=
  decide (idHash cfg.seed i % cfg.sampleDenom < cfg.sampleNumer)

/-- Modelled from the spec: the Sampling Selector of section 4.4, missing
from src/. Always selects policy-flagged events and events rated 1 or 2;
otherwise decides by the seeded hash draw over the id. The
pairwise-comparison clause of section 4.4 is not modelled: the section 3
event carries no pairwise-task field at ingestion time, so that clause is
not a function of the event, and the section 8 determinism property
quantifies over the event alone. -/
def selectForLabeling (cfg : SamplingConfig) (se : ScrubbedEvent) : Bool :=
  if se.systemAnnotations.policyViolations ≠ [] then true
  else if se.event.feedback.rating = 1 ∨ se.event.feedback.rating = 2 then true
  else hashDraw cfg se.event.id

/-- A persisted record: the scrubbed event plus the sampling decision taken
once at ingestion time (sections 4.3, 4.4, 4.7). -/
structure StoredRecord where
  event : FeedbackEvent
  systemAnnotations : SystemAnnotations
  selectedForLabeling : Bool
deriving DecidableEq

/-- The deduplication store, keyed exclusively by event id; arrival order is
list order, so first write wins (section 4.3). -/
abbrev Store := List StoredRecord

/-- Lookup of the first (hence the originally inserted) record with an id. -/
def findById (s : Store) (i : String) : Option StoredRecord :=
  s.find? fun r => r.event.id == i

/-- Number of records stored under an id. -/
def countById (s : Store) (i : String) : Nat :=
  s.countP fun r => r.event.id == i

/-- Modelled from the spec: recordIfNew of section 4.3, missing from src/.
Keyed exclusively by id; a second call with an already present id is a
no-op returning inserted = false, and the original record is never
overwritten (append-only per id, first write wins). -/
def recordIfNew (s : Store) (r : StoredRecord) : Bool × Store :=
  match findById s r.event.id with
  | some _ => (false, s)
  | none => (true, s ++ [r])

/-- Status of one ingestion call (section 4.7 contract). -/
inductive IngestStatus where
  | accepted
  | duplicate
  | rejected (reason : ErrorKind)
deriving DecidableEq

/-- Configuration injected into the orchestrator (section 9). -/
structure PipelineConfig where
  scrubCfg : ScrubConfig
  samplingCfg : SamplingConfig

/-- The record the orchestrator persists for a validated event: the
scrubbed event plus the sampling decision, taken once at ingestion time
(sections 4.3, 4.4, 4.7). -/
def mkStored (cfg : PipelineConfig) (e : FeedbackEvent) : StoredRecord :=
  let se := scrub cfg.scrubCfg e
  { event := se.event, systemAnnotations := se.systemAnnotations,
    selectedForLabeling := selectForLabeling cfg.samplingCfg se }

/-- Modelled from the spec: the Pipeline Orchestrator ingest of section 4.7,
missing from src/. Sequences validate, scrub, dedupe synchronously,
recording the sampling decision at ingestion time; a validation error
rejects the single event, an already stored id yields duplicate and leaves
the store untouched. -/
def ingest (cfg : PipelineConfig) (s : Store) (raw : RawEvent) : IngestStatus × Store :=
  match validate raw with
  | .error k => (.rejected k, s)
  | .ok e =>
    match recordIfNew s (mkStored cfg e) with
    | (true, s1) => (.accepted, s1)
    | (false, _) => (.duplicate, s)

/-- Iterated re-submission of the same raw event. -/
def iterateIngest (cfg : PipelineConfig) (raw : RawEvent) : Nat → Store → Store
  | 0, s => s
  | n + 1, s => iterateIngest cfg raw n (ingest cfg s raw).2

/-- Modelled from the spec: all labels known for one event when the Reward
Aggregator runs (section 4.5): the base rating from feedback (absent only
in the MissingBaseSignal failure mode), the optional expert label score,
and the number of preference pairs the event won and lost. -/
structure LabelSet where
  rating : Option Int
  labelScore : Option ℚ
  winCount : Nat
  lossCount : Nat
deriving DecidableEq

/-- Modelled from the spec: the RewardRecord of section 3. The confidence
field is derived from the stored label count, see
RewardRecord.confidence. -/
structure RewardRecord where
  eventId : String
  scalarReward : ℚ
  sourceLabels : Nat
  computedAt : Nat
deriving DecidableEq

/-- Modelled from the spec: confidence = 1 - exp(-0.5 * labelCount)
(section 4.5 step 4); kept as a real-valued function of the stored label
count because exp is transcendental. -/
noncomputable def RewardRecord.confidence (rr : RewardRecord) : ℝ :=
  1 - Real.exp (-(1 / 2) * (rr.sourceLabels : ℝ))

/-- Clamp of a rational to [0,1]. -/
def clamp01 (x : ℚ) : ℚ := max 0 (min 1 x)

/-- Modelled from the spec: the Reward Aggregator of section 4.5, missing
from src/. Base signal (rating - 1) / 4; a present expert label blends as
0.3 * base + 0.7 * labelScore; an event participating in at least one
preference pair as winner gets the bonus min(1, s + 0.05 * winCount -
0.05 * lossCount), which the spec clamps to [0,1]; labelCount counts the
contributing label signals, the base rating as one and an expert label as
one more; an absent rating fails with MissingBaseSignal. Pure. -/
def aggregate (eventId : String) (labels : LabelSet) (now : Nat) :
    Except ErrorKind RewardRecord :=
  match labels.rating with
  | none => .error .MissingBaseSignal
  | some r =>
    let base : ℚ := ((r : ℚ) - 1) / 4
    let blended : ℚ :=
      match labels.labelScore with
      | none => base
      | some sc => 3 / 10 * base + 7 / 10 * sc
    let bonused : ℚ :=
      if 1 ≤ labels.winCount then
        clamp01 (min 1 (blended + 1 / 20 * (labels.winCount : ℚ) - 1 / 20 * (labels.lossCount : ℚ)))
      else blended
    let labelCount : Nat := 1 + (match labels.labelScore with | none => 0 | some _ => 1)
    .ok { eventId := eventId, scalarReward := bonused, sourceLabels := labelCount,
          computedAt := now }

/-- Modelled from the spec: a PreferencePair of section 3. -/
structure PreferencePair where
  contextId : Nat
  winnerEventId : String
  loserEventId : String
  marginConfidence : ℚ
  batchId : String
deriving DecidableEq

/-- Modelled from the spec: one labeled pairwise comparison from the
pairwise preference tasks (section 4.6); graded = none is a binary choice
(margin 1.0), some g a graded choice with proportional margin. -/
structure Comparison where
  winnerEventId : String
  loserEventId : String
  batchId : String
  graded : Option ℚ
deriving DecidableEq

/-- Modelled from the spec: the order-independent content hash over the four
context fields (section 4.6); the hash itself is unspecified, modelled as a
sum of string hashes. -/
def contextHash (cx : Context) : Nat :=
  idHash 7 (cx.productIdea.getD "") + idHash 7 (cx.targetAudience.getD "")
    + idHash 7 (cx.goal.getD "") + (cx.previousTests.map (idHash 7)).sum

/-- Margin confidence of a comparison (section 4.6). -/
def marginOf (c : Comparison) : ℚ :=
  match c.graded with
  | none => 1
  | some g => g

/-- Modelled from the spec: the Preference Pair Builder of section 4.6,
missing from src/. Emits one PreferencePair per labeled comparison; a
self-pairing raises InvalidPair and rejects the call rather than silently
dropping the item; both sides must reference persisted events sharing an
equivalent context, also rejected with InvalidPair otherwise (the spec
names no separate error kind for that case). -/
def buildPairs (events : Store) (cs : List Comparison) :
    Except (ErrorKind × Comparison) (List PreferencePair) :=
  match cs with
  | [] => .ok []
  | c :: rest =>
    if c.winnerEventId = c.loserEventId then .error (.InvalidPair, c)
    else
      match findById events c.winnerEventId, findById events c.loserEventId with
      | some w, some l =>
        if contextHash w.event.context = contextHash l.event.context then
          match buildPairs events rest with
          | .ok ps =>
            .ok ({ contextId := contextHash w.event.context, winnerEventId := c.winnerEventId,
                   loserEventId := c.loserEventId, marginConfidence := marginOf c,
                   batchId := c.batchId } :: ps)
          | .error err => .error err
        else .error (.InvalidPair, c)
      | _, _ => .error (.InvalidPair, c)

namespace Mobile

/-- Projection of a parsed JSON response body to the two fields the client
error path reads (src/apps/mobile/constants/api.ts, lines 170-175). -/
structure JsBody where
  detail : Option String
  message : Option String
deriving DecidableEq

/-- An HTTP response as the client observes it: the ok flag, the status
code, the JSON parse of the body when the body parses (projected to
JsBody, none when parsing fails), and the raw body used by blob(). -/
structure HttpResponse where
  ok : Bool
  status : Nat
  jsonBody : Option JsBody
  rawBody : String
deriving DecidableEq

/-- JavaScript truthiness of an optional string field: an absent field and
the empty string are both falsy. -/
def jsTruthy : Option String → Bool
  | none => false
  | some s => !s.isEmpty

/-- Translation of the error-message selection in ApiService.request:
errorData.detail || errorData.message || the HTTP-status fallback, where
errorData is the JSON parse of the body, defaulting to the empty object
when that parse fails (api.ts, lines 170-175). -/
def errorMessageOf (resp : HttpResponse) : String :=
  let errorData : JsBody := resp.jsonBody.getD { detail := none, message := none }
  if jsTruthy errorData.detail then errorData.detail.getD ""
  else if jsTruthy errorData.message then errorData.message.getD ""
  else "HTTP error! status: " ++ toString resp.status

/-- Result of one client call: resolve with a parsed JSON body, resolve
with a Blob, or throw with a message. -/
inductive MethodResult where
  | json (body : JsBody)
  | blob (bytes : String)
  | thrown (msg : String)
deriving DecidableEq

/-- Translation of ApiService.request (api.ts, lines 146-182): an ok
response resolves with the parsed JSON body; an ok response whose body does
not parse throws, because await response.json() raises; a non-ok response
throws with errorMessageOf. The catch block only logs and rethrows. -/
def request (resp : HttpResponse) : MethodResult :=
  if resp.ok then
    match resp.jsonBody with
    | some j => .json j
    | none => .thrown "invalid json"
  else .thrown (errorMessageOf resp)

/-- Translation of ApiService.getSpeechAudio (api.ts, lines 240-259): an ok
response resolves with await response.blob(), the raw body; a non-ok
response throws with the same message rule as request. -/
def getSpeechAudio (resp : HttpResponse) : MethodResult :=
  if resp.ok then .blob resp.rawBody else .thrown (errorMessageOf resp)

/-- The public methods of ApiService (api.ts, lines 184-266). -/
inductive ApiMethod where
  | analyzeIdea
  | getIdeas
  | getIdea
  | getProjects
  | getProject
  | createProject
  | generateProjectDetails
  | healthCheck
  | tikiTakaConversation
  | synthesizeSpeech
  | generateSurveyPosts
  | getSpeechAudio
deriving DecidableEq

/-- Every public method delegates to request, except getSpeechAudio, which
fetches directly and resolves with a Blob (api.ts). The endpoint and the
request options do not affect how a given response is consumed. -/
def runMethod (m : ApiMethod) (resp : HttpResponse) : MethodResult :=
  match m with
  | .getSpeechAudio => getSpeechAudio resp
  | _ => request resp

/-- Whether a call threw. -/
def MethodResult.isThrown : MethodResult → Bool
  | .thrown _ => true
  | _ => false

/-- The error-message rule stated from the words of claim C10, named apart
because it follows the claim, not the source: the detail field of the body
if present, else the message field, else the HTTP-status fallback. -/
def claimedErrorMessage (resp : HttpResponse) : String :=
  let errorData : JsBody := resp.jsonBody.getD { detail := none, message := none }
  match errorData.detail with
  | some d => d
  | none =>
    match errorData.message with
    | some msg => msg
    | none => "HTTP error! status: " ++ toString resp.status

/-- Claim C10 stated from its words: every public ApiService method either
resolves with the parsed JSON body of a response whose ok flag is true, or
throws; and a non-ok response makes every method throw with
claimedErrorMessage. -/
def apiAllOrNothingClaim : Prop :=
  ∀ (m : ApiMethod) (resp : HttpResponse),
    ((runMethod m resp).isThrown = false →
      resp.ok = true ∧ ∃ j, resp.jsonBody = some j ∧ runMethod m resp = .json j) ∧
    (resp.ok = false → runMethod m resp = .thrown (claimedErrorMessage resp))

/-- Response of the generate-details endpoint (api.ts ProjectDetailsResponse). -/
structure ProjectDetails where
  name : String
  description : String
deriving DecidableEq

/-- A project as returned by createProject (api.ts Project). -/
structure Project where
  id : Nat
  name : String
  description : Option String
deriving DecidableEq

/-- The API calls the home-screen analyzeIdea flow can issue, in the
vocabulary of ApiService; there is no delete or rollback call anywhere in
the client API surface. -/
inductive HomeCall where
  | generateProjectDetails (transcribedText : String)
  | createProject (name : String) (description : String)
  | analyzeIdeaRequest (transcribedText : String) (projectId : Nat)
deriving DecidableEq

/-- Observable outcome of one run of the home-screen analyzeIdea flow: the
API calls issued in order, the projects persisted by successful
createProject calls, the project ids that received a linked idea, the
alert shown, the navigation performed, and the busy flag after the
finally block. -/
structure HomeOutcome where
  calls : List HomeCall
  createdProjects : List Project
  linkedIdeaProjects : List Nat
  alert : Option (String × String)
  navigatedTo : Option String
  isAnalyzing : Bool
deriving DecidableEq

/-- JavaScript error.message || fallback, as in the catch block of the
home-screen analyzeIdea. -/
def alertMessage (e : String) (fallback : String) : String :=
  if e.isEmpty then fallback else e

/-- Translation of analyzeIdea in the mobile home screen (src/unnamed/
part_001, lines 1027-1063). The three network calls are passed as oracles,
each either succeeding with a value or failing with an error message. The
code awaits generateProjectDetails, then createProject, then the
analyzeIdea API call with the created project id, then navigates; any
thrown error reaches the single catch block, which shows an alert, and the
finally block clears the busy flag. Nothing in the flow deletes a
project. -/
def homeAnalyzeIdea (text : String)
    (genDetails : Except String ProjectDetails)
    (createProj : ProjectDetails → Except String Project)
    (analyzeCall : Nat → Except String Unit) : HomeOutcome :=
  match genDetails with
  | .error e =>
    { calls := [.generateProjectDetails text], createdProjects := [],
      linkedIdeaProjects := [],
      alert := some ("Error", alertMessage e "Failed to analyze idea. Please try again."),
      navigatedTo := none, isAnalyzing := false }
  | .ok d =>
    match createProj d with
    | .error e =>
      { calls := [.generateProjectDetails text, .createProject d.name d.description],
        createdProjects := [], linkedIdeaProjects := [],
        alert := some ("Error", alertMessage e "Failed to analyze idea. Please try again."),
        navigatedTo := none, isAnalyzing := false }
    | .ok p =>
      match analyzeCall p.id with
      | .error e =>
        { calls := [.generateProjectDetails text, .createProject d.name d.description,
                    .analyzeIdeaRequest text p.id],
          createdProjects := [p], linkedIdeaProjects := [],
          alert := some ("Error", alertMessage e "Failed to analyze idea. Please try again."),
          navigatedTo := none, isAnalyzing := false }
      | .ok _ =>
        { calls := [.generateProjectDetails text, .createProject d.name d.description,
                    .analyzeIdeaRequest text p.id],
          createdProjects := [p], linkedIdeaProjects := [p.id],
          alert := none, navigatedTo := some ("/project/" ++ toString p.id),
          isAnalyzing := false }

end Mobile

/-- A concrete context used by the concrete ingestion scenarios. -/
def sampleContext : Context :=
  { productIdea := some "curated plant care kits", targetAudience := some "urban millennials",
    goal := some "test willingness to pay", previousTests := [] }

/-- A concrete generated output used by the concrete ingestion scenarios. -/
def sampleOutput : Output :=
  { type := "survey", content := "Would you pay 25 per month", tokenCount := some 342 }

/-- A concrete validated feedback block with a given rating. -/
def sampleFeedback (r : Int) : Feedback :=
  { rating := r, usefulness := none, clarity := none, biasCheck := none,
    wouldFollow := none, freeText := none }

/-- A concrete validated event with a given id and rating. -/
def sampleEvent (i : String) (r : Int) : FeedbackEvent :=
  { id := i, userId := "anon_1", timestamp := 100, appVersion := none,
    context := sampleContext, output := sampleOutput, sourceModel := "advisor-v1",
    feedback := sampleFeedback r }

/-- Empty scrubber annotations for the concrete scenarios. -/
def sampleAnn : SystemAnnotations :=
  { containsPersonalData := false, containsActionableRecruitmentSteps := false,
    policyViolations := [] }

/-- A concrete stored record with a given id and rating. -/
def sampleRecord (i : String) (r : Int) : StoredRecord :=
  { event := sampleEvent i r, systemAnnotations := sampleAnn, selectedForLabeling := false }

/-- A scrubber configuration with no detectors, for the concrete scenarios. -/
def sampleScrub : ScrubConfig :=
  { piiDetectors := [], recruitmentDetector := fun _ => false, policyRules := [] }

/-- A concrete pipeline configuration: no detectors, default sampling. -/
def sampleConfig : PipelineConfig :=
  { scrubCfg := sampleScrub, samplingCfg := defaultSampling }

/-- A concrete raw event with a given id and rating and no free text. -/
def sampleRawEvent (i : String) (r : Int) : RawEvent :=
  { id := some i, userId := some "anon_1", timestamp := some "100", appVersion := none,
    context := some sampleContext, output := some sampleOutput,
    sourceModel := some "advisor-v1",
    feedback := some { rating := some r, usefulness := none, clarity := none,
                       biasCheck := none, wouldFollow := none, freeText := none } }

/-- A concrete raw event whose free text is 5000 characters long. -/
def sampleRawLong : RawEvent :=
  { sampleRawEvent "fb_long" 4 with
    feedback := some { rating := some 4, usefulness := none, clarity := none,
                       biasCheck := none, wouldFollow := none,
                       freeText := some (String.mk (List.replicate 5000 'a')) } }

/-- Claim C8: the dedup store frame property. For every id already present in
the store, recordIfNew with a record carrying that id, whatever its payload,
returns inserted = false, leaves the store unchanged, and the originally
stored record is still what lookup finds. -/
theorem recordIfNew_frame (s : Store) (r0 rNew : StoredRecord)
    (h : findById s rNew.event.id = some r0) :
    recordIfNew s rNew = (false, s) ∧
    findById (recordIfNew s rNew).2 rNew.event.id = some r0 := by
  simp [recordIfNew, h]

/-- Witness for C8: a second record under id fb_1 with a different rating is
refused and the original record with rating 4 is still the one stored. -/
theorem recordIfNew_frame_witness :
    recordIfNew [sampleRecord "fb_1" 4] (sampleRecord "fb_1" 2) =
      (false, [sampleRecord "fb_1" 4]) ∧
    findById (recordIfNew [sampleRecord "fb_1" 4] (sampleRecord "fb_1" 2)).2
      (sampleRecord "fb_1" 2).event.id = some (sampleRecord "fb_1" 4) :=
  recordIfNew_frame [sampleRecord "fb_1" 4] (sampleRecord "fb_1" 4)
    (sampleRecord "fb_1" 2) (by decide)

/-- Claim C9: the home-screen analyzeIdea flow is not atomic. When
generateProjectDetails and createProject succeed and the analyzeIdea API
call fails, the flow has already issued createProject before the analysis
request, the created project stays persisted, no idea is linked to it, the
error path only shows the alert and clears the busy flag, and no navigation
happens; the call vocabulary contains no delete, so no rollback occurs. -/
theorem homeAnalyzeIdea_orphan_project (text : String)
    (genDetails : Except String Mobile.ProjectDetails)
    (createProj : Mobile.ProjectDetails → Except String Mobile.Project)
    (analyzeCall : Nat → Except String Unit)
    (d : Mobile.ProjectDetails) (p : Mobile.Project) (e : String)
    (hgd : genDetails = .ok d) (hcp : createProj d = .ok p)
    (hac : analyzeCall p.id = .error e) :
    Mobile.homeAnalyzeIdea text genDetails createProj analyzeCall =
      { calls := [.generateProjectDetails text, .createProject d.name d.description,
                  .analyzeIdeaRequest text p.id],
        createdProjects := [p], linkedIdeaProjects := [],
        alert := some ("Error",
          Mobile.alertMessage e "Failed to analyze idea. Please try again."),
        navigatedTo := none, isAnalyzing := false } := by
  simp [Mobile.homeAnalyzeIdea, hgd, hcp, hac]

/-- Witness for C9: a concrete run where analysis fails with message boom
leaves project 7 created with no linked idea. -/
theorem homeAnalyzeIdea_orphan_project_witness :
    Mobile.homeAnalyzeIdea "a chatbot idea" (.ok { name := "Chatbot", description := "d" })
      (fun pd => .ok { id := 7, name := pd.name, description := some pd.description })
      (fun _ => .error "boom") =
      { calls := [.generateProjectDetails "a chatbot idea", .createProject "Chatbot" "d",
                  .analyzeIdeaRequest "a chatbot idea" 7],
        createdProjects := [{ id := 7, name := "Chatbot", description := some "d" }],
        linkedIdeaProjects := [],
        alert := some ("Error",
          Mobile.alertMessage "boom" "Failed to analyze idea. Please try again."),
        navigatedTo := none, isAnalyzing := false } :=
  homeAnalyzeIdea_orphan_project "a chatbot idea" _ _ _
    { name := "Chatbot", description := "d" }
    { id := 7, name := "Chatbot", description := some "d" } "boom" rfl rfl rfl

/-- Claim C6: the sampling policy is a deterministic function of the event
and the configuration: it selects every policy-flagged event and every
event rated 1 or 2, otherwise it decides exactly by the seeded hash draw
over the event id; and equal inputs always give the same boolean. -/
theorem selectForLabeling_deterministic_policy (cfg : SamplingConfig) (se : ScrubbedEvent) :
    (se.systemAnnotations.policyViolations ≠ [] → selectForLabeling cfg se = true) ∧
    (se.event.feedback.rating = 1 ∨ se.event.feedback.rating = 2 →
      selectForLabeling cfg se = true) ∧
    (se.systemAnnotations.policyViolations = [] →
      ¬(se.event.feedback.rating = 1 ∨ se.event.feedback.rating = 2) →
      selectForLabeling cfg se = hashDraw cfg se.event.id) ∧
    (∀ cfg2 se2, cfg2 = cfg → se2 = se →
      selectForLabeling cfg2 se2 = selectForLabeling cfg se) := by
  refine ⟨fun h => ?_, fun h => ?_, fun h1 h2 => ?_, fun cfg2 se2 hc hs => ?_⟩
  · simp [selectForLabeling, h]
  · simp [selectForLabeling, h]
  · simp [selectForLabeling, h1, h2]
  · rw [hc, hs]

/-- Witness for C6: a policy-flagged concrete event is always selected. -/
theorem selectForLabeling_deterministic_policy_witness :
    selectForLabeling defaultSampling
      { event := sampleEvent "fb_1" 4,
        systemAnnotations := { containsPersonalData := false,
                               containsActionableRecruitmentSteps := false,
                               policyViolations := ["recruitment"] } } = true :=
  (selectForLabeling_deterministic_policy defaultSampling
    { event := sampleEvent "fb_1" 4,
      systemAnnotations := { containsPersonalData := false,
                             containsActionableRecruitmentSteps := false,
                             policyViolations := ["recruitment"] } }).1 (by decide)

/-- Claim C2: the reward aggregation formula. For a validated rating r with
no expert label the scalar reward is (r - 1) / 4 with one contributing
label; with an expert label sc it is 0.3 * ((r - 1) / 4) + 0.7 * sc with
two contributing labels; confidence is 1 - exp(-0.5 * labelCount); in
particular rating 4 alone gives 0.75 with confidence 1 - exp(-0.5), and
attaching labelScore 0.9 gives 0.855 with confidence 1 - exp(-1). -/
theorem aggregate_reward_formula (i : String) (r : Int) (t : Nat)
    (_h1 : 1 ≤ r) (_h5 : r ≤ 5) :
    (aggregate i { rating := some r, labelScore := none, winCount := 0, lossCount := 0 } t =
      .ok { eventId := i, scalarReward := ((r : ℚ) - 1) / 4, sourceLabels := 1,
            computedAt := t }) ∧
    (∀ sc : ℚ,
      aggregate i { rating := some r, labelScore := some sc, winCount := 0, lossCount := 0 } t =
        .ok { eventId := i, scalarReward := 3 / 10 * (((r : ℚ) - 1) / 4) + 7 / 10 * sc,
              sourceLabels := 2, computedAt := t }) ∧
    (∀ rr : RewardRecord, rr.sourceLabels = 1 →
      rr.confidence = 1 - Real.exp (-(1 / 2))) ∧
    (∀ rr : RewardRecord, rr.sourceLabels = 2 →
      rr.confidence = 1 - Real.exp (-1)) ∧
    (aggregate "fb_1" { rating := some 4, labelScore := none, winCount := 0, lossCount := 0 } t =
      .ok { eventId := "fb_1", scalarReward := 3 / 4, sourceLabels := 1, computedAt := t }) ∧
    (aggregate "fb_1"
        { rating := some 4, labelScore := some (9 / 10), winCount := 0, lossCount := 0 } t =
      .ok { eventId := "fb_1", scalarReward := 171 / 200, sourceLabels := 2,
            computedAt := t }) := by
  refine ⟨?_, fun sc => ?_, fun rr hl => ?_, fun rr hl => ?_, ?_, ?_⟩
  · simp [aggregate]
  · simp [aggregate]
  · simp [RewardRecord.confidence, hl]
  · rw [RewardRecord.confidence, hl]
    norm_num
  · simp [aggregate]
    norm_num
  · simp [aggregate]
    norm_num

/-- Witness for C2: the concrete fb_1 scenario of the spec, rating 4 and
then label score 0.9. -/
theorem aggregate_reward_formula_witness :
    (aggregate "fb_1" { rating := some 4, labelScore := none, winCount := 0, lossCount := 0 } 0 =
      .ok { eventId := "fb_1", scalarReward := 3 / 4, sourceLabels := 1, computedAt := 0 }) ∧
    (aggregate "fb_1"
        { rating := some 4, labelScore := some (9 / 10), winCount := 0, lossCount := 0 } 0 =
      .ok { eventId := "fb_1", scalarReward := 171 / 200, sourceLabels := 2,
            computedAt := 0 }) :=
  ⟨(aggregate_reward_formula "fb_1" 4 0 (by decide) (by decide)).2.2.2.2.1,
   (aggregate_reward_formula "fb_1" 4 0 (by decide) (by decide)).2.2.2.2.2⟩

/-- The clamp to [0,1] is bounded below by 0. -/
theorem clamp01_nonneg (x : ℚ) : 0 ≤ clamp01 x := le_max_left 0 (min 1 x)

/-- The clamp to [0,1] is bounded above by 1. -/
theorem clamp01_le_one (x : ℚ) : clamp01 x ≤ 1 :=
  max_le (by norm_num) (min_le_left 1 x)

/-- Confidence derived from any label count lies in [0,1]. -/
theorem confidence_mem_unit (rr : RewardRecord) :
    0 ≤ rr.confidence ∧ rr.confidence ≤ 1 := by
  unfold RewardRecord.confidence
  constructor
  · have h : Real.exp (-(1 / 2) * (rr.sourceLabels : ℝ)) ≤ 1 := by
      apply Real.exp_le_one_iff.mpr
      have hn : (0 : ℝ) ≤ (rr.sourceLabels : ℝ) := Nat.cast_nonneg rr.sourceLabels
      nlinarith
    linarith
  · have h := Real.exp_pos (-(1 / 2) * (rr.sourceLabels : ℝ))
    linarith

/-- Claim C3: the reward bounds invariant. Every RewardRecord produced by
aggregate from a validated rating and a label score in [0,1] has its
scalar reward in [0,1] and its confidence in [0,1], for every winCount and
lossCount, the winner bonus being clamped to [0,1] as the spec demands. -/
theorem aggregate_reward_bounds (i : String) (labels : LabelSet) (t : Nat)
    (rr : RewardRecord)
    (hr : ∀ r ∈ labels.rating, 1 ≤ r ∧ r ≤ 5)
    (hs : ∀ sc ∈ labels.labelScore, 0 ≤ sc ∧ sc ≤ 1)
    (hok : aggregate i labels t = .ok rr) :
    0 ≤ rr.scalarReward ∧ rr.scalarReward ≤ 1 ∧
    0 ≤ rr.confidence ∧ rr.confidence ≤ 1 := by
  obtain ⟨ratingOpt, scoreOpt, w, l⟩ := labels
  cases ratingOpt with
  | none => simp [aggregate] at hok
  | some r =>
    obtain ⟨hr1, hr5⟩ := hr r (by simp)
    have hq1 : (1 : ℚ) ≤ (r : ℚ) := by exact_mod_cast hr1
    have hq5 : (r : ℚ) ≤ 5 := by exact_mod_cast hr5
    have hb0 : (0 : ℚ) ≤ ((r : ℚ) - 1) / 4 := by linarith
    have hb1 : ((r : ℚ) - 1) / 4 ≤ 1 := by linarith
    have bounded : ∀ B : ℚ, 0 ≤ B → B ≤ 1 →
        0 ≤ (if 1 ≤ w then clamp01 (min 1 (B + 1 / 20 * (w : ℚ) - 1 / 20 * (l : ℚ))) else B) ∧
        (if 1 ≤ w then clamp01 (min 1 (B + 1 / 20 * (w : ℚ) - 1 / 20 * (l : ℚ))) else B) ≤ 1 := by
      intro B hB0 hB1
      by_cases hw : 1 ≤ w
      · simp only [if_pos hw]
        exact ⟨clamp01_nonneg _, clamp01_le_one _⟩
      · simp only [if_neg hw]
        exact ⟨hB0, hB1⟩
    cases scoreOpt with
    | none =>
      simp only [aggregate] at hok
      rw [Except.ok.injEq] at hok
      subst hok
      exact ⟨(bounded _ hb0 hb1).1, (bounded _ hb0 hb1).2,
        (confidence_mem_unit _).1, (confidence_mem_unit _).2⟩
    | some sc =>
      obtain ⟨hs0, hs1⟩ := hs sc (by simp)
      have hB0 : (0 : ℚ) ≤ 3 / 10 * (((r : ℚ) - 1) / 4) + 7 / 10 * sc := by nlinarith
      have hB1 : 3 / 10 * (((r : ℚ) - 1) / 4) + 7 / 10 * sc ≤ 1 := by nlinarith
      simp only [aggregate] at hok
      rw [Except.ok.injEq] at hok
      subst hok
      exact ⟨(bounded _ hB0 hB1).1, (bounded _ hB0 hB1).2,
        (confidence_mem_unit _).1, (confidence_mem_unit _).2⟩

/-- Witness for C3: the concrete fb_1 record with rating 4 has its scalar
reward and confidence inside [0,1]. -/
theorem aggregate_reward_bounds_witness :
    0 ≤ (RewardRecord.mk "fb_1" (3 / 4) 1 0).scalarReward ∧
    (RewardRecord.mk "fb_1" (3 / 4) 1 0).scalarReward ≤ 1 ∧
    0 ≤ (RewardRecord.mk "fb_1" (3 / 4) 1 0).confidence ∧
    (RewardRecord.mk "fb_1" (3 / 4) 1 0).confidence ≤ 1 :=
  aggregate_reward_bounds "fb_1"
    { rating := some 4, labelScore := none, winCount := 0, lossCount := 0 } 0
    (RewardRecord.mk "fb_1" (3 / 4) 1 0)
    (fun r hr => by simp at hr; omega)
    (fun sc hsc => by simp at hsc)
    (by simp [aggregate]; norm_num)

/-- Claim C4: rating bounds. For a raw event that passes the presence and
timestamp checks but whose integer rating lies outside [1,5], validate and
hence ingest fail with OutOfRange; and every event validate accepts, and
every record a successful ingest appends, carries a rating in
{1, 2, 3, 4, 5}. -/
theorem ingest_rating_bounds (cfg : PipelineConfig) (s : Store) (raw : RawEvent)
    (i u ts sm : String) (cx : Context) (outp : Output) (fb : RawFeedback)
    (r : Int) (tsv : Nat)
    (hid : raw.id = some i) (huid : raw.userId = some u) (hts : raw.timestamp = some ts)
    (hcx : raw.context = some cx) (hout : raw.output = some outp)
    (hsm : raw.sourceModel = some sm) (hfb : raw.feedback = some fb)
    (hr : fb.rating = some r) (htsv : parseTimestamp ts = some tsv) :
    (¬(1 ≤ r ∧ r ≤ 5) →
      validate raw = .error .OutOfRange ∧
      ingest cfg s raw = (.rejected .OutOfRange, s)) ∧
    (∀ e : FeedbackEvent, validate raw = .ok e →
      e.feedback.rating = 1 ∨ e.feedback.rating = 2 ∨ e.feedback.rating = 3 ∨
      e.feedback.rating = 4 ∨ e.feedback.rating = 5) ∧
    (∀ s1 : Store, ingest cfg s raw = (.accepted, s1) →
      ∃ rcd : StoredRecord, s1 = s ++ [rcd] ∧
        (rcd.event.feedback.rating = 1 ∨ rcd.event.feedback.rating = 2 ∨
         rcd.event.feedback.rating = 3 ∨ rcd.event.feedback.rating = 4 ∨
         rcd.event.feedback.rating = 5)) := by
  have hval : validate raw =
      (if inRange15 r && optInRange15 fb.usefulness && optInRange15 fb.clarity
          && optInRange15 fb.wouldFollow then
        .ok { id := i, userId := u, timestamp := tsv, appVersion := raw.appVersion,
              context := cx, output := outp, sourceModel := sm,
              feedback := { rating := r, usefulness := fb.usefulness, clarity := fb.clarity,
                            biasCheck := fb.biasCheck, wouldFollow := fb.wouldFollow,
                            freeText := fb.freeText.map truncateFreeText } }
      else .error .OutOfRange) := by
    simp [validate, hid, huid, hts, hcx, hout, hsm, hfb, hr, htsv]
  refine ⟨fun hbad => ?_, fun e he => ?_, fun s1 hacc => ?_⟩
  · have hfalse : inRange15 r = false := by
      simp [inRange15]
      omega
    have hv : validate raw = .error .OutOfRange := by
      rw [hval, hfalse]
      simp
    exact ⟨hv, by simp [ingest, hv]⟩
  · rw [hval] at he
    by_cases hcond : (inRange15 r && optInRange15 fb.usefulness && optInRange15 fb.clarity
        && optInRange15 fb.wouldFollow) = true
    · rw [if_pos hcond] at he
      have hrin : inRange15 r = true := by
        simp only [Bool.and_eq_true] at hcond
        exact hcond.1.1.1
      have hr15 : 1 ≤ r ∧ r ≤ 5 := by
        simpa [inRange15] using hrin
      have hre : e.feedback.rating = r := by
        cases he
        rfl
      rw [hre]
      omega
    · rw [if_neg hcond] at he
      cases he
  · unfold ingest at hacc
    rw [hval] at hacc
    by_cases hcond : (inRange15 r && optInRange15 fb.usefulness && optInRange15 fb.clarity
        && optInRange15 fb.wouldFollow) = true
    · rw [if_pos hcond] at hacc
      have hrin : inRange15 r = true := by
        simp only [Bool.and_eq_true] at hcond
        exact hcond.1.1.1
      have hr15 : 1 ≤ r ∧ r ≤ 5 := by
        simpa [inRange15] using hrin
      simp only [recordIfNew, mkStored, scrub] at hacc
      cases hfind : findById s i with
      | some r0 =>
        rw [hfind] at hacc
        simp at hacc
      | none =>
        rw [hfind] at hacc
        simp at hacc
        refine ⟨_, hacc.symm, ?_⟩
        simp only
        omega
    · rw [if_neg hcond] at hacc
      simp at hacc

/-- Witness for C4: a concrete raw event rated 9 is rejected with
OutOfRange by validate and by ingest. -/
theorem ingest_rating_bounds_witness :
    validate (sampleRawEvent "fb_bad" 9) = .error .OutOfRange ∧
    ingest sampleConfig [] (sampleRawEvent "fb_bad" 9) =
      (.rejected .OutOfRange, []) :=
  (ingest_rating_bounds sampleConfig [] (sampleRawEvent "fb_bad" 9)
    "fb_bad" "anon_1" "100" "advisor-v1" sampleContext sampleOutput
    { rating := some 9, usefulness := none, clarity := none, biasCheck := none,
      wouldFollow := none, freeText := none } 9 100
    rfl rfl rfl rfl rfl rfl rfl rfl (by decide)).1 (by decide)

/-- Claim C5: truncation, not rejection. A raw event that passes every other
check and whose free text exceeds 2000 characters is accepted by validate
with its free text truncated to exactly 2000 characters, and a fresh id
makes ingest accept it. -/
theorem validate_truncates_freeText (cfg : PipelineConfig) (s : Store) (raw : RawEvent)
    (i u ts sm : String) (cx : Context) (outp : Output) (fb : RawFeedback)
    (r : Int) (tsv : Nat) (t : String)
    (hid : raw.id = some i) (huid : raw.userId = some u) (hts : raw.timestamp = some ts)
    (hcx : raw.context = some cx) (hout : raw.output = some outp)
    (hsm : raw.sourceModel = some sm) (hfb : raw.feedback = some fb)
    (hr : fb.rating = some r) (htsv : parseTimestamp ts = some tsv)
    (hrin : inRange15 r = true) (hu : optInRange15 fb.usefulness = true)
    (hc : optInRange15 fb.clarity = true) (hw : optInRange15 fb.wouldFollow = true)
    (hft : fb.freeText = some t) (hlen : 2000 < t.length) :
    ∃ e : FeedbackEvent, validate raw = .ok e ∧
      e.feedback.freeText = some (truncateFreeText t) ∧
      (truncateFreeText t).length = 2000 ∧
      (findById s i = none → (ingest cfg s raw).1 = .accepted) := by
  have hval : validate raw =
      .ok { id := i, userId := u, timestamp := tsv, appVersion := raw.appVersion,
            context := cx, output := outp, sourceModel := sm,
            feedback := { rating := r, usefulness := fb.usefulness, clarity := fb.clarity,
                          biasCheck := fb.biasCheck, wouldFollow := fb.wouldFollow,
                          freeText := fb.freeText.map truncateFreeText } } := by
    simp [validate, hid, huid, hts, hcx, hout, hsm, hfb, hr, htsv, hrin, hu, hc, hw]
  refine ⟨_, hval, ?_, ?_, fun hfresh => ?_⟩
  · simp [hft]
  · have : (truncateFreeText t).length = min 2000 t.length :=
      List.length_take 2000 t.data
    omega
  · unfold ingest
    rw [hval]
    simp only [recordIfNew, mkStored, scrub]
    rw [hfresh]

/-- Witness for C5: the concrete event with a 5000-character free text is
accepted and stored with exactly 2000 characters. -/
theorem validate_truncates_freeText_witness :
    ∃ e : FeedbackEvent, validate sampleRawLong = .ok e ∧
      e.feedback.freeText = some (truncateFreeText (String.mk (List.replicate 5000 'a'))) ∧
      (truncateFreeText (String.mk (List.replicate 5000 'a'))).length = 2000 ∧
      (findById [] "fb_long" = none → (ingest sampleConfig [] sampleRawLong).1 = .accepted) :=
  validate_truncates_freeText sampleConfig [] sampleRawLong
    "fb_long" "anon_1" "100" "advisor-v1" sampleContext sampleOutput
    { rating := some 4, usefulness := none, clarity := none, biasCheck := none,
      wouldFollow := none, freeText := some (String.mk (List.replicate 5000 'a')) } 4 100
    (String.mk (List.replicate 5000 'a'))
    rfl rfl rfl rfl rfl rfl rfl rfl (by decide) (by decide) rfl rfl rfl rfl
    (by
      have h : (String.mk (List.replicate 5000 'a')).length = 5000 :=
        List.length_replicate 5000 'a'
      omega)


/-- A validated event keeps the id of the raw event it came from. -/
theorem validate_id (raw : RawEvent) (e : FeedbackEvent)
    (h : validate raw = .ok e) : raw.id = some e.id := by
  unfold validate at h
  split at h
  · split at h
    · simp at h
    · split at h
      · simp at h
      · split at h
        · rw [Except.ok.injEq] at h
          subst h
          simp_all
        · simp at h
  · simp at h

/-- Unfolding of ingest for a raw event that validates: the call is decided
by the dedup lookup under the validated id. -/
theorem ingest_eq (cfg : PipelineConfig) (s : Store) (raw : RawEvent) (e : FeedbackEvent)
    (hval : validate raw = .ok e) :
    ingest cfg s raw = (match findById s e.id with
      | some _ => (IngestStatus.duplicate, s)
      | none => (IngestStatus.accepted, s ++ [mkStored cfg e])) := by
  unfold ingest
  rw [hval]
  simp only [recordIfNew, mkStored, scrub]
  cases h : findById s e.id with
  | some r0 => rfl
  | none => rfl

/-- Claim C1: idempotent ingestion. Once ingest accepts a raw event, a
second call with the same event returns duplicate, not an error, the store
is unchanged, exactly one record exists under the id, and any number of
further repeated calls still leaves exactly that one record. -/
theorem ingest_idempotent (cfg : PipelineConfig) (s s1 : Store) (raw : RawEvent)
    (i : String) (hid : raw.id = some i)
    (hacc : ingest cfg s raw = (.accepted, s1)) :
    ingest cfg s1 raw = (.duplicate, s1) ∧
    countById s1 i = 1 ∧
    (∀ n : Nat, iterateIngest cfg raw n s1 = s1 ∧
      countById (iterateIngest cfg raw n s1) i = 1) := by
  cases hval : validate raw with
  | error k =>
    unfold ingest at hacc
    rw [hval] at hacc
    simp at hacc
  | ok e =>
    have hde : e.id = i := by
      have h2 := validate_id raw e hval
      rw [hid] at h2
      exact (Option.some.inj h2).symm
    subst hde
    rw [ingest_eq cfg s raw e hval] at hacc
    cases hfind : findById s e.id with
    | some r0 =>
      rw [hfind] at hacc
      simp at hacc
    | none =>
      rw [hfind] at hacc
      simp only at hacc
      rw [Prod.mk.injEq] at hacc
      obtain ⟨-, hs1⟩ := hacc
      subst hs1
      have hfindn : List.find? (fun r => r.event.id == e.id) s = none := hfind
      have hfind2 : findById (s ++ [mkStored cfg e]) e.id = some (mkStored cfg e) := by
        unfold findById
        rw [List.find?_append, hfindn]
        simp [mkStored, scrub]
      have hdup : ingest cfg (s ++ [mkStored cfg e]) raw =
          (.duplicate, s ++ [mkStored cfg e]) := by
        rw [ingest_eq cfg (s ++ [mkStored cfg e]) raw e hval, hfind2]
      have hcount : countById (s ++ [mkStored cfg e]) e.id = 1 := by
        unfold countById
        rw [List.countP_append]
        have h0 : List.countP (fun r => r.event.id == e.id) s = 0 := by
          rw [List.countP_eq_zero]
          intro a ha
          exact List.find?_eq_none.mp hfindn a ha
        rw [h0]
        simp [mkStored, scrub]
      have hiter : ∀ n : Nat,
          iterateIngest cfg raw n (s ++ [mkStored cfg e]) = s ++ [mkStored cfg e] := by
        intro n
        induction n with
        | zero => rfl
        | succ m ihm =>
          show iterateIngest cfg raw m (ingest cfg (s ++ [mkStored cfg e]) raw).2 =
            s ++ [mkStored cfg e]
          rw [hdup]
          exact ihm
      exact ⟨hdup, hcount, fun n => ⟨hiter n, by rw [hiter n]; exact hcount⟩⟩

/-- Witness for C1: the concrete fb_1 event is accepted into the empty
store; resubmitting it yields duplicate and one stored record. -/
theorem ingest_idempotent_witness :
    ingest sampleConfig (ingest sampleConfig [] (sampleRawEvent "fb_1" 4)).2
        (sampleRawEvent "fb_1" 4) =
      (.duplicate, (ingest sampleConfig [] (sampleRawEvent "fb_1" 4)).2) ∧
    countById (ingest sampleConfig [] (sampleRawEvent "fb_1" 4)).2 "fb_1" = 1 ∧
    (∀ n : Nat,
      iterateIngest sampleConfig (sampleRawEvent "fb_1" 4) n
          (ingest sampleConfig [] (sampleRawEvent "fb_1" 4)).2 =
        (ingest sampleConfig [] (sampleRawEvent "fb_1" 4)).2 ∧
      countById
          (iterateIngest sampleConfig (sampleRawEvent "fb_1" 4) n
            (ingest sampleConfig [] (sampleRawEvent "fb_1" 4)).2) "fb_1" = 1) :=
  ingest_idempotent sampleConfig []
    (ingest sampleConfig [] (sampleRawEvent "fb_1" 4)).2
    (sampleRawEvent "fb_1" 4) "fb_1" rfl (by decide)


/-- The only error kind buildPairs ever raises is InvalidPair. -/
theorem buildPairs_error_invalid (events : Store) :
    ∀ (cs : List Comparison) (err : ErrorKind × Comparison),
      buildPairs events cs = .error err → err.1 = ErrorKind.InvalidPair := by
  intro cs
  induction cs with
  | nil =>
    intro err h
    simp [buildPairs] at h
  | cons c rest ih =>
    intro err h
    unfold buildPairs at h
    by_cases hself : c.winnerEventId = c.loserEventId
    · rw [if_pos hself] at h
      rw [Except.error.injEq] at h
      subst h
      rfl
    · rw [if_neg hself] at h
      cases hw : findById events c.winnerEventId with
      | none =>
        rw [hw] at h
        cases hl : findById events c.loserEventId with
        | none =>
          rw [hl] at h
          rw [Except.error.injEq] at h
          subst h
          rfl
        | some l =>
          rw [hl] at h
          rw [Except.error.injEq] at h
          subst h
          rfl
      | some w =>
        rw [hw] at h
        cases hl : findById events c.loserEventId with
        | none =>
          rw [hl] at h
          rw [Except.error.injEq] at h
          subst h
          rfl
        | some l =>
          rw [hl] at h
          dsimp only at h
          by_cases hctx : contextHash w.event.context = contextHash l.event.context
          · rw [if_pos hctx] at h
            cases hb : buildPairs events rest with
            | ok ps =>
              rw [hb] at h
              simp at h
            | error e2 =>
              rw [hb] at h
              rw [Except.error.injEq] at h
              subst h
              exact ih e2 hb
          · rw [if_neg hctx] at h
            rw [Except.error.injEq] at h
            subst h
            rfl

/-- Claim C7: no self-preference. Every pair a successful buildPairs call
emits has distinct winner and loser, and a self-pairing comparison anywhere
in the input makes the call reject with InvalidPair rather than silently
dropping the item. -/
theorem buildPairs_no_self (events : Store) (cs : List Comparison) :
    (∀ ps, buildPairs events cs = .ok ps →
      ∀ p ∈ ps, p.winnerEventId ≠ p.loserEventId) ∧
    (∀ c ∈ cs, c.winnerEventId = c.loserEventId →
      ∃ bad : Comparison,
        buildPairs events cs = .error (ErrorKind.InvalidPair, bad)) := by
  induction cs with
  | nil =>
    constructor
    · intro ps h p hp
      simp only [buildPairs, Except.ok.injEq] at h
      subst h
      simp at hp
    · intro c hc
      simp at hc
  | cons c rest ih =>
    constructor
    · intro ps h p hp
      unfold buildPairs at h
      by_cases hself : c.winnerEventId = c.loserEventId
      · rw [if_pos hself] at h
        simp at h
      · rw [if_neg hself] at h
        cases hw : findById events c.winnerEventId with
        | none =>
          rw [hw] at h
          cases hl : findById events c.loserEventId with
          | none => rw [hl] at h; simp at h
          | some l => rw [hl] at h; simp at h
        | some w =>
          rw [hw] at h
          cases hl : findById events c.loserEventId with
          | none => rw [hl] at h; simp at h
          | some l =>
            rw [hl] at h
            dsimp only at h
            by_cases hctx : contextHash w.event.context = contextHash l.event.context
            · rw [if_pos hctx] at h
              cases hb : buildPairs events rest with
              | error e2 => rw [hb] at h; simp at h
              | ok ps2 =>
                rw [hb] at h
                rw [Except.ok.injEq] at h
                subst h
                rcases List.mem_cons.mp hp with hp1 | hp2
                · subst hp1
                  exact hself
                · exact ih.1 ps2 hb p hp2
            · rw [if_neg hctx] at h
              simp at h
    · intro c0 hc0 hself0
      unfold buildPairs
      by_cases hself : c.winnerEventId = c.loserEventId
      · rw [if_pos hself]
        exact ⟨c, rfl⟩
      · rw [if_neg hself]
        rcases List.mem_cons.mp hc0 with rfl | hrest
        · exact absurd hself0 hself
        · obtain ⟨bad, hbad⟩ := ih.2 c0 hrest hself0
          cases hw : findById events c.winnerEventId with
          | none =>
            cases hl : findById events c.loserEventId with
            | none => exact ⟨c, rfl⟩
            | some l => exact ⟨c, rfl⟩
          | some w =>
            cases hl : findById events c.loserEventId with
            | none => exact ⟨c, rfl⟩
            | some l =>
              by_cases hctx : contextHash w.event.context = contextHash l.event.context
              · refine ⟨bad, ?_⟩
                dsimp only
                rw [if_pos hctx, hbad]
              · refine ⟨c, ?_⟩
                dsimp only
                rw [if_neg hctx]

/-- Witness for C7: a self-pairing comparison on event a is rejected with
InvalidPair. -/
theorem buildPairs_no_self_witness :
    ∃ bad : Comparison,
      buildPairs [sampleRecord "a" 4, sampleRecord "b" 4]
          [{ winnerEventId := "a", loserEventId := "a", batchId := "batch_1",
             graded := none }] =
        .error (ErrorKind.InvalidPair, bad) :=
  (buildPairs_no_self [sampleRecord "a" 4, sampleRecord "b" 4]
      [{ winnerEventId := "a", loserEventId := "a", batchId := "batch_1",
         graded := none }]).2
    { winnerEventId := "a", loserEventId := "a", batchId := "batch_1", graded := none }
    (by decide) rfl


/-- Counterexample to claim C10 as stated. The claim fails twice on the
source: getSpeechAudio resolves with a Blob built from the raw body even
when the body is not JSON at all, so not every method resolves with the
parsed JSON body of an ok response; and the error-message rule reads the
detail and message fields through JavaScript truthiness, so a present but
empty detail field is skipped in favour of the message field, where the
claim as stated would pick the empty detail. -/
theorem apiAllOrNothing_claim_false :
    ¬ Mobile.apiAllOrNothingClaim ∧
    Mobile.runMethod .getSpeechAudio
        { ok := true, status := 200, jsonBody := none, rawBody := "AUDIO" } =
      .blob "AUDIO" ∧
    Mobile.errorMessageOf
        { ok := false, status := 400,
          jsonBody := some { detail := some "", message := some "boom" },
          rawBody := "" } = "boom" ∧
    Mobile.claimedErrorMessage
        { ok := false, status := 400,
          jsonBody := some { detail := some "", message := some "boom" },
          rawBody := "" } = "" ∧
    Mobile.runMethod .healthCheck
        { ok := false, status := 400,
          jsonBody := some { detail := some "", message := some "boom" },
          rawBody := "" } = .thrown "boom" := by
  refine ⟨?_, by decide, by decide, by decide, by decide⟩
  intro hclaim
  obtain ⟨h1, -⟩ := hclaim .getSpeechAudio
    { ok := true, status := 200, jsonBody := none, rawBody := "AUDIO" }
  obtain ⟨-, j, hj, -⟩ := h1 (by decide)
  cases hj

/-- Claim C10 amended: every public ApiService method either resolves or
throws, never resolving for a non-ok response; the methods other than
getSpeechAudio resolve exactly with the parsed JSON body of an ok response
(throwing when an ok body fails to parse), while getSpeechAudio resolves
with the raw body as a Blob whenever ok is true; on a non-ok response every
method throws with the detail field of the body when present and
non-empty, else the message field when present and non-empty, else the
string built from the HTTP status. -/
theorem apiService_all_or_nothing (m : Mobile.ApiMethod) (resp : Mobile.HttpResponse) :
    (resp.ok = false →
      Mobile.runMethod m resp = .thrown (Mobile.errorMessageOf resp)) ∧
    (m ≠ .getSpeechAudio → (Mobile.runMethod m resp).isThrown = false →
      resp.ok = true ∧
      ∃ j, resp.jsonBody = some j ∧ Mobile.runMethod m resp = .json j) ∧
    (m = .getSpeechAudio → resp.ok = true →
      Mobile.runMethod m resp = .blob resp.rawBody) ∧
    (Mobile.jsTruthy (resp.jsonBody.getD { detail := none, message := none }).detail = true →
      Mobile.errorMessageOf resp =
        (resp.jsonBody.getD { detail := none, message := none }).detail.getD "") ∧
    (Mobile.jsTruthy (resp.jsonBody.getD { detail := none, message := none }).detail = false →
      Mobile.jsTruthy (resp.jsonBody.getD { detail := none, message := none }).message = true →
      Mobile.errorMessageOf resp =
        (resp.jsonBody.getD { detail := none, message := none }).message.getD "") ∧
    (Mobile.jsTruthy (resp.jsonBody.getD { detail := none, message := none }).detail = false →
      Mobile.jsTruthy (resp.jsonBody.getD { detail := none, message := none }).message = false →
      Mobile.errorMessageOf resp = "HTTP error! status: " ++ toString resp.status) := by
  obtain ⟨ok, status, jsonBody, rawBody⟩ := resp
  refine ⟨fun hok => ?_, fun hm hth => ?_, fun hm hok => ?_,
    fun hd => ?_, fun hd hmsg => ?_, fun hd hmsg => ?_⟩
  · subst hok
    cases m <;> simp [Mobile.runMethod, Mobile.request, Mobile.getSpeechAudio]
  · cases m <;> simp only [Mobile.runMethod, Mobile.request] at hth ⊢ <;>
      first
      | exact absurd rfl hm
      | (cases hok : ok with
         | false =>
           rw [hok] at hth
           simp [Mobile.MethodResult.isThrown] at hth
         | true =>
           rw [hok] at hth
           cases hj : jsonBody with
           | none =>
             rw [hj] at hth
             simp [Mobile.MethodResult.isThrown] at hth
           | some j => exact ⟨rfl, j, rfl, by simp⟩)
  · subst hm
    subst hok
    simp [Mobile.runMethod, Mobile.getSpeechAudio]
  · simp only [Mobile.errorMessageOf]
    rw [if_pos hd]
  · simp only [Mobile.errorMessageOf]
    rw [if_neg (by simp [hd]), if_pos hmsg]
  · simp only [Mobile.errorMessageOf]
    rw [if_neg (by simp [hd]), if_neg (by simp [hmsg])]

/-- Witness for the amended C10: a concrete non-ok response makes
healthCheck throw with the message selected by the source rule. -/
theorem apiService_all_or_nothing_witness :
    Mobile.runMethod .healthCheck
        { ok := false, status := 404, jsonBody := none, rawBody := "" } =
      .thrown (Mobile.errorMessageOf
        { ok := false, status := 404, jsonBody := none, rawBody := "" }) :=
  (apiService_all_or_nothing .healthCheck
    { ok := false, status := 404, jsonBody := none, rawBody := "" }).1 rfl


end Postul
